import Mathlib

/-!
Shallow embedding of the two source files of django-elasticsearch-dsl
(django_elasticsearch_dsl/documents.py and django_elasticsearch_dsl/search.py),
together with theorems settling the specification claims about them.

Conventions of the embedding:
* Django settings read ambiently by the code are gathered into a `Settings`
  record passed explicitly.
* Python dictionaries whose insertion order matters are association lists.
* A Python function that can raise is embedded as a function into `Except`.
* The single-pass generator handed to the bulk helper is embedded as a list
  that is consumed (emptied) by the first full iteration.
-/

namespace DED

/-- Global Django settings consumed by documents.py and search.py:
ELASTICSEARCH_DSL_TRANSLATION_ENABLED (default False), LANGUAGE_ENGLISH,
ES_INDEX_PREFIX (default empty), ES_INDEX_SUFFIX (default empty),
LANGUAGE_ANALYSERS, the keys of the ELASTICSEARCH_DSL cluster map in
enumeration order, and ELASTICSEARCH_DSL_LOAD_PER_QUERY (default 10).
The two prefix/suffix settings are named idxPre and idxSuf here. -/
structure Settings where
  translationEnabled : Bool
  languageEnglish : String
  idxPre : String
  idxSuf : String
  languageAnalysers : List String
  clusterAliases : List String
  loadPerQuery : Nat
  deriving DecidableEq, Repr

/-- Argument passed as `index` to DocType.get_custom_index_name: a Python
list or tuple of base names, or a single base name. -/
inductive IndexArg where
  | seq : List String → IndexArg
  | single : String → IndexArg
  deriving DecidableEq, Repr

/-- Outcome of DocType.get_custom_index_name.  `raw` is the computed value
returned as-is, `defaultIndex` is `cls._default_index(value)` (the platform
default-index wrapper of elasticsearch_dsl applied to the value), and
`unboundLocalError` is the exception Python raises when the non-sequence
branch evaluates the loop variable `i`, which is never assigned on that
branch (documents.py line 88). -/
inductive IndexResult where
  | raw : IndexArg → IndexResult
  | defaultIndex : IndexArg → IndexResult
  | unboundLocalError : IndexResult
  deriving DecidableEq, Repr

/-- Python truthiness of `language or settings.LANGUAGE_ENGLISH`
(documents.py line 71): None and the empty string fall back to the
configured English tag. -/
def resolvedLanguage (s : Settings) (language : Option String) : String :=
  match language with
  | none => s.languageEnglish
  | some l => if l = "" then s.languageEnglish else l

/-- The format expression used by get_custom_index_name (documents.py lines
77-82 and 86-91): optional prefix segment, the base name, optional language
segment when translation is enabled, optional suffix segment, each present
segment separated from the next by a single hyphen. -/
def formatName (enabled : Bool) (pre suf lang base : String) : String :=
  (if pre ≠ "" then pre ++ "-" else "") ++ base ++
    (if enabled then "-" ++ lang else "") ++
    (if suf ≠ "" then "-" ++ suf else "")

/-- DocType.get_custom_index_name (documents.py lines 65-94).  On the
list/tuple branch each element is formatted with `formatName`; on the
non-sequence branch the format call evaluates the unassigned local `i` and
raises UnboundLocalError before any return statement is reached.  When the
format succeeds, the raw value is returned only if translation is enabled
and both prefix and suffix are non-empty; otherwise the value is passed
through `cls._default_index`. -/
def get_custom_index_name (s : Settings) (index : IndexArg)
    (language : Option String) : IndexResult :=
  let lang := resolvedLanguage s language
  match index with
  | .seq names =>
      let customIndexes := names.map (formatName s.translationEnabled s.idxPre s.idxSuf lang)
      if ¬ (s.translationEnabled = true ∧ s.idxPre ≠ "" ∧ s.idxSuf ≠ "") then
        .defaultIndex (.seq customIndexes)
      else
        .raw (.seq customIndexes)
  | .single _ => .unboundLocalError

/-- Projection recovering the list of computed names from the result of
get_custom_index_name, whether or not the default-index wrapper was
applied. -/
def computedNames : IndexResult → Option (List String)
  | .raw (.seq l) => some l
  | .defaultIndex (.seq l) => some l
  | _ => none

/-- The for loop of DocType.bulk (documents.py lines 185-189): every
non-default connection alias, in map enumeration order, receives one bulk
call.  The single-pass actions iterator is threaded through: a call hands
the whole remaining stream to the helper, which exhausts it, so the next
call starts from an empty stream.  Returns the list of performed calls
(alias, actions received) and the stream remaining after the loop. -/
def bulkLoop {A : Type} (aliases : List String) (remaining : List A) :
    List (String × List A) × List A :=
  match aliases with
  | [] => ([], remaining)
  | a :: rest =>
      if a = "default" then bulkLoop rest remaining
      else
        let r := bulkLoop rest []
        ((a, remaining) :: r.1, r.2)

/-- DocType.bulk (documents.py lines 181-191): the loop over all configured
aliases skipping "default", then one final bulk call on the default
connection whose result is returned.  `run` is the elasticsearch bulk
helper, abstracted as a function of the target alias and the actions it
drains from the iterator. -/
def DocType.bulk {A R : Type} (s : Settings) (actions : List A)
    (run : String → List A → R) : List (String × List A) × R :=
  let r := bulkLoop s.clusterAliases actions
  (r.1 ++ [("default", r.2)], run "default" r.2)

/-- The for loop of DocType.save (documents.py lines 200-201): the sequence
of aliases on which super().save(using=alias) is called, i.e. every
configured alias except "default", in map enumeration order. -/
def saveLoop (aliases : List String) : List String :=
  match aliases with
  | [] => []
  | a :: rest => if a = "default" then saveLoop rest else a :: saveLoop rest

/-- DocType.save (documents.py lines 198-203): save on every non-default
connection in order, then one final save on the default connection whose
result is returned. -/
def DocType.save {R : Type} (s : Settings) (run : String → R) : List String × R :=
  (saveLoop s.clusterAliases ++ ["default"], run "default")

/-- DocType.delete (documents.py lines 193-196): super().delete(using=alias)
is called for every configured alias, "default" included, in map
enumeration order; the method body has no return statement, so it returns
None whatever the per-cluster calls return. -/
def DocType.delete (R : Type) (s : Settings) : List String × Option R :=
  (s.clusterAliases, none)

/-- Fuel-driven chunking used to model django.core.paginator.Paginator:
successive pages are `take p` prefixes of the remaining objects.  The fuel
is an upper bound on the number of steps; `chunkList` below instantiates it
with the list length, which suffices whenever the page size is positive. -/
def chunkAux {α : Type} (p : Nat) : Nat → List α → List (List α)
  | 0, _ => []
  | _ + 1, [] => []
  | fuel + 1, x :: l => (x :: l).take p :: chunkAux p fuel ((x :: l).drop p)

/-- Splitting a non-empty object list into Paginator pages of size `p`. -/
def chunkList {α : Type} (p : Nat) (l : List α) : List (List α) :=
  chunkAux p l.length l

/-- Page contents of django.core.paginator.Paginator(object_list, p)
traversed in page_range order: an empty object list still produces one
empty page (allow_empty_first_page), otherwise pages are consecutive
chunks of size p, the last one possibly shorter. -/
def djangoPages {α : Type} (p : Nat) (l : List α) : List (List α) :=
  if l.isEmpty then [[]] else chunkList p l

/-- One call site of DocType._prepare_action inside the _get_actions loops:
the object it is called on and the language argument it is passed (none on
the translation-disabled paths, which call _prepare_action without a
language). -/
structure PreparedAction (α : Type) where
  obj : α
  lang : Option String
  deriving DecidableEq, Repr

/-- The loop structure of DocType._get_actions (documents.py lines
217-245): with translation enabled, every object of every page (or of the
plain object list when pagination is off) is combined with every configured
language analyser; with translation disabled each object yields a single
_prepare_action call with no language.  Returns the stream of call sites in
yield order. -/
def DocType.getActions {α : Type} (s : Settings) (pagination : Option Nat)
    (objects : List α) : List (PreparedAction α) :=
  if s.translationEnabled then
    match pagination with
    | some p =>
        (djangoPages p objects).flatMap (fun page =>
          page.flatMap (fun o => s.languageAnalysers.map (fun l => ⟨o, some l⟩)))
    | none =>
        objects.flatMap (fun o => s.languageAnalysers.map (fun l => ⟨o, some l⟩))
  else
    match pagination with
    | some p => (djangoPages p objects).flatMap (fun page => page.map (fun o => ⟨o, none⟩))
    | none => objects.map (fun o => ⟨o, none⟩)

/-- Thread-local translation state of django.utils.translation: the
currently active language, if any. -/
structure LangState where
  active : Option String
  deriving DecidableEq, Repr

/-- The `with translation.override(language)` block (documents.py line
206): on entry the requested language is activated (None deactivates
translation); the body runs in that state; on exit the previously active
language is unconditionally re-activated, whether the body returned or
raised.  The body returns its outcome together with the state it left
behind. -/
def translationOverride {E A : Type} (language : Option String)
    (body : LangState → Except E A × LangState) (st : LangState) :
    Except E A × LangState :=
  let saved := st.active
  let r := body { active := language }
  (r.1, { active := saved })

/-- Exceptions that can escape document preparation: the UnboundLocalError
raised by get_custom_index_name on a single-string index, or an error of
the user-supplied preparation hooks. -/
inductive PyError (E : Type) where
  | unboundLocal : PyError E
  | user : E → PyError E
  deriving DecidableEq, Repr

/-- The bulk-action dictionary built by DocType._prepare_action: operation
kind, index name, document id, and the prepared source (None for
deletes). -/
structure BulkAction (S : Type) where
  op_type : String
  idx : IndexResult
  id : Nat
  src : Option S
  deriving DecidableEq, Repr

/-- Body of the dictionary literal of DocType._prepare_action (documents.py
lines 207-215), evaluated inside the translation override.  Python
evaluates the dictionary values in key order: the `_index` value calls
get_custom_index_name(self._index._name, language) with a single string,
which raises UnboundLocalError before `_source` is evaluated; if the index
computation were to succeed, the source would be self.prepare(...) for
non-delete actions and None for deletes.  `prep` is the prepare call,
reading and threading the translation state. -/
def prepActionBody {E S : Type} (s : Settings) (indexBase : String) (action : String)
    (pk : Nat) (prep : LangState → Except E S × LangState) (language : Option String)
    (st : LangState) : Except (PyError E) (BulkAction S) × LangState :=
  match get_custom_index_name s (.single indexBase) language with
  | .unboundLocalError => (.error .unboundLocal, st)
  | idx =>
      if action ≠ "delete" then
        let r := prep st
        match r.1 with
        | .error e => (.error (.user e), r.2)
        | .ok src => (.ok ⟨action, idx, pk, some src⟩, r.2)
      else
        (.ok ⟨action, idx, pk, none⟩, st)

/-- DocType._prepare_action (documents.py lines 205-215): the dictionary
construction above, wrapped in the scoped translation override for the
requested language. -/
def DocType.prepare_action {E S : Type} (s : Settings) (indexBase : String)
    (action : String) (pk : Nat) (prep : LangState → Except E S × LangState)
    (language : Option String) (st : LangState) :
    Except (PyError E) (BulkAction S) × LangState :=
  translationOverride language (prepActionBody s indexBase action pk prep language) st

/-- Sequencing of a generator that can raise: iterating stops at the first
raised exception, otherwise all yielded values are collected. -/
def exceptSeq {Er A : Type} : List (Except Er A) → Except Er (List A)
  | [] => .ok []
  | .error e :: _ => .error e
  | .ok a :: rest => (exceptSeq rest).map (a :: ·)

/-- Iterating the DocType._get_actions generator to completion: each
_prepare_action call site of the stream is evaluated (with the translation
state each call starts from left abstract via `st`), and iteration raises
as soon as one call raises.  `pkOf` reads object_instance.pk and `prep`
embeds self.prepare on a given object. -/
def DocType.getActionsE {α E S : Type} (s : Settings) (pagination : Option Nat)
    (indexBase : String) (action : String) (pkOf : α → Nat)
    (prep : α → LangState → Except E S × LangState) (objects : List α)
    (st : LangState) : Except (PyError E) (List (BulkAction S)) :=
  exceptSeq ((DocType.getActions s pagination objects).map (fun c =>
    (DocType.prepare_action s indexBase action (pkOf c.obj) (prep c.obj) c.lang st).1))

/-- Declared per-field information used by DocType.prepare: whether the
field is a DEDField instance (only those are serialized) and its declared
attribute path (field._path). -/
structure DEDFieldInfo where
  isDED : Bool
  path : List String
  deriving DecidableEq, Repr

/-- The document class as seen by DocType.prepare, over instance type I,
value type V and related-instances type G: the declared fields in
dictionary iteration order, the two optional per-field hook families
(prepare_<name>_with_related and prepare_<name>), the generic extractor
field.get_value_from_instance applied to a declared attribute path, the
translation flag, and the translate_field hook in effect on the class. -/
structure DocEnv (I V G : Type) where
  fields : List (String × DEDFieldInfo)
  prepareWithRelated : String → Option (I → Option G → V)
  prepareHook : String → Option (I → V)
  getValueFromInstance : List String → I → Option G → V
  translationEnabled : Bool
  translateHook : String → V → Bool → V

/-- DocType.prepare (documents.py lines 130-163): every declared DEDField
is resolved, in declaration order, by trying the prepare-with-related hook
first (passing the instance and self._related_instance_to_ignore), then the
plain prepare hook (passing the instance), then the generic extractor on
the declared path (defaulted to the field name when empty); when
translation is enabled the resolved value is passed through the
translate_field hook with the field name and the fail_silently flag. -/
def DocType.prepare {I V G : Type} (env : DocEnv I V G) (inst : I)
    (relatedIgnore : Option G) (fail_silently : Bool) : List (String × V) :=
  env.fields.filterMap (fun nf =>
    if nf.2.isDED = false then none
    else
      let path := if nf.2.path = [] then [nf.1] else nf.2.path
      let v :=
        match env.prepareWithRelated nf.1 with
        | some hook => hook inst relatedIgnore
        | none =>
            match env.prepareHook nf.1 with
            | some hook => hook inst
            | none => env.getValueFromInstance path inst relatedIgnore
      let v2 := if env.translationEnabled then env.translateHook nf.1 v fail_silently else v
      some (nf.1, v2))

/-- Default DocType.translate_field implementation (documents.py lines
114-122): returns the value unchanged for every field name and
fail_silently flag. -/
def DocType.translate_field {V : Type} (field_name : String) (value : V)
    (fail_silently : Bool) : V :=
  value

/-- Specification-side restatement of the per-field resolution priority:
prepare-with-related hook if defined, else prepare hook if defined, else
the generic extractor over the declared attribute path, then the
translation hook when translation is enabled.  Kept separate from
DocType.prepare so the two can be compared. -/
def resolveFieldSpec {I V G : Type} (env : DocEnv I V G) (inst : I)
    (relatedIgnore : Option G) (fail_silently : Bool) (name : String)
    (fld : DEDFieldInfo) : V :=
  let base :=
    match env.prepareWithRelated name with
    | some hook => hook inst relatedIgnore
    | none =>
        match env.prepareHook name with
        | some hook => hook inst
        | none =>
            env.getValueFromInstance (if fld.path = [] then [name] else fld.path)
              inst relatedIgnore
  if env.translationEnabled then env.translateHook name base fail_silently else base

/-- State of a django_elasticsearch_dsl Search relevant to to_queryset: the
source exclusion list of the request body and the cached response, present
once the query has been executed, holding the hit document ids in hit
order. -/
structure SearchS where
  excludes : List String
  cachedIds : Option (List Nat)
  deriving DecidableEq, Repr

/-- Search.source(excludes=...) of elasticsearch_dsl: a clone of the query
with the given source exclusions. -/
def Search.source (s : SearchS) (ex : List String) : SearchS :=
  { s with excludes := ex }

/-- Search.execute of elasticsearch_dsl: runs the request against the
backend (a function from the source exclusions of the request to the hit
ids) and caches the response; an already-cached response is returned
without a network call. -/
def Search.execute (backend : List String → List Nat) (s : SearchS) : SearchS :=
  match s.cachedIds with
  | some _ => s
  | none => { s with cachedIds := some (backend s.excludes) }

/-- SQL semantics of Django order_by over the single
Case(When(pk=id1, then=0), When(pk=id2, then=1), ...) expression built by
to_queryset: every row is keyed by the position of its pk among the hit
ids (the first matching When clause) and rows are emitted in ascending key
order; rows matching no When clause (key = pks.length, a NULL case value)
are grouped after the matched ones.  With distinct keys this is the unique
sort by case value. -/
def djangoCaseOrder {ρ : Type} (pks : List Nat) (rows : List (Nat × ρ)) :
    List (Nat × ρ) :=
  (List.range (pks.length + 1)).flatMap (fun k =>
    rows.filter (fun r => pks.indexOf r.1 = k))

/-- Result of Search.to_queryset: which source exclusions were sent if a
query had to be issued (none when the cached response was reused), and the
rows of the returned queryset in final order. -/
structure QuerysetResult (ρ : Type) where
  executedExcludes : Option (List String)
  rows : List (Nat × ρ)
  deriving DecidableEq, Repr

/-- Search.to_queryset (search.py lines 17-40): when no response is cached,
the query is re-issued with all source fields excluded
(source(excludes=['*'])) and executed; the hit ids are read off in hit
order; the model queryset is filtered to pk__in those ids (rows listed here
in the natural order of the database `db`); and with keep_order the single
CASE expression mapping each id to its position orders the rows. -/
def Search.to_queryset {ρ : Type} (backend : List String → List Nat)
    (db : List (Nat × ρ)) (s : SearchS) (keep_order : Bool) : QuerysetResult ρ :=
  let executed : SearchS × Option (List String) :=
    match s.cachedIds with
    | some _ => (s, none)
    | none =>
        let s2 := Search.source s ["*"]
        (Search.execute backend s2, some s2.excludes)
  let pks := executed.1.cachedIds.getD []
  let qs := db.filter (fun r => pks.contains r.1)
  ⟨executed.2, if keep_order then djangoCaseOrder pks qs else qs⟩

/-- Association-list lookup for string-keyed query bodies. -/
def lookupKey (k : String) (l : List (String × Nat)) : Option Nat :=
  (l.find? (fun e => e.1 = k)).map Prod.snd

/-- elasticsearch_dsl Search.to_dict, the superclass call of search.py line
43: the base body (query and such) is always emitted; the extra parameters
(where caller-set from and size live) are emitted only for non-count
requests. -/
def DSLSearch.to_dict (count : Bool) (base extra : List (String × Nat)) :
    List (String × Nat) :=
  if count then base else base ++ extra

/-- Search.to_dict (search.py lines 42-49): the superclass body, and for
non-count requests a default "from" of 0 and a default "size" of
ELASTICSEARCH_DSL_LOAD_PER_QUERY are appended when the body does not
already carry those keys. -/
def Search.to_dict (loadPerQuery : Nat) (count : Bool)
    (base extra : List (String × Nat)) : List (String × Nat) :=
  let qb := DSLSearch.to_dict count base extra
  if count then qb
  else
    let qb2 := if lookupKey "from" qb = none then qb ++ [("from", 0)] else qb
    if lookupKey "size" qb2 = none then qb2 ++ [("size", loadPerQuery)] else qb2

/-- Django model field classes appearing in documents.py, i.e. the twenty
keys of model_field_class_to_field_class plus representative unmapped
classes (relational and specialised fields have no entry in the map). -/
inductive ModelFieldClass where
  | AutoField | BigIntegerField | BooleanField | CharField | DateField
  | DateTimeField | EmailField | FileField | FilePathField | FloatField
  | ImageField | IntegerField | NullBooleanField | PositiveIntegerField
  | PositiveSmallIntegerField | SlugField | SmallIntegerField | TextField
  | TimeField | URLField
  | ForeignKey | ManyToManyField | UUIDField | GenericIPAddressField
  deriving DecidableEq, Repr

/-- Elasticsearch field classes used as values of the mapping. -/
inductive ESFieldClass where
  | BooleanField | DateField | DoubleField | FileField | IntegerField
  | KeywordField | LongField | ShortField | TextField
  deriving DecidableEq, Repr

/-- model_field_class_to_field_class (documents.py lines 26-47). -/
def model_field_class_to_field_class : List (ModelFieldClass × ESFieldClass) :=
  [(.AutoField, .IntegerField),
   (.BigIntegerField, .LongField),
   (.BooleanField, .BooleanField),
   (.CharField, .TextField),
   (.DateField, .DateField),
   (.DateTimeField, .DateField),
   (.EmailField, .TextField),
   (.FileField, .FileField),
   (.FilePathField, .KeywordField),
   (.FloatField, .DoubleField),
   (.ImageField, .FileField),
   (.IntegerField, .IntegerField),
   (.NullBooleanField, .BooleanField),
   (.PositiveIntegerField, .IntegerField),
   (.PositiveSmallIntegerField, .ShortField),
   (.SlugField, .KeywordField),
   (.SmallIntegerField, .ShortField),
   (.TextField, .TextField),
   (.TimeField, .LongField),
   (.URLField, .TextField)]

/-- An elasticsearch field instance as constructed by DocType.to_field: the
field class applied with attr set to the model field name. -/
structure ESFieldInstance where
  fieldClass : ESFieldClass
  attr : String
  deriving DecidableEq, Repr

/-- DocType.to_field (documents.py lines 165-179): look the model field
class up in the mapping and instantiate the search field class with the
field name as attr; a missing entry raises ModelFieldNotMappedError whose
message carries the offending field name. -/
def DocType.to_field (field_name : String) (model_field : ModelFieldClass) :
    Except String ESFieldInstance :=
  match model_field_class_to_field_class.find? (fun e => e.1 = model_field) with
  | some e => .ok ⟨e.2, field_name⟩
  | none =>
      .error ("Cannot convert model field " ++ field_name ++
        " to an Elasticsearch field!")

/-- The document ids to_queryset works from: the cached response when the
query was already executed, otherwise the ids produced by executing the
re-issued identifier-only query. -/
def hitIds (backend : List String → List Nat) (s : SearchS) : List Nat :=
  match s.cachedIds with
  | some ids => ids
  | none => backend ["*"]

/-- Sample settings used to instantiate closed statements: translation
disabled, no prefix and no suffix configured, the given cluster aliases. -/
def sampleSettings (aliases : List String) : Settings :=
  { translationEnabled := false, languageEnglish := "en", idxPre := "",
    idxSuf := "", languageAnalysers := [], clusterAliases := aliases,
    loadPerQuery := 10 }

/-- The invocation trace of the bulk loop is exactly the non-default
aliases in enumeration order. -/
theorem bulkLoop_map_fst {A : Type} (aliases : List String) (remaining : List A) :
    ((bulkLoop aliases remaining).1.map Prod.fst) =
      aliases.filter (fun a => a != "default") := by
  induction aliases generalizing remaining with
  | nil => rfl
  | cons a rest ih =>
      by_cases ha : a = "default" <;>
        simp [bulkLoop, ha, List.filter_cons, ih]

/-- Starting the bulk loop on an exhausted iterator, every call receives no
actions and the iterator stays exhausted. -/
theorem bulkLoop_nil {A : Type} (aliases : List String) :
    bulkLoop (A := A) aliases [] =
      ((aliases.filter (fun a => a != "default")).map (fun x => (x, [])), []) := by
  induction aliases with
  | nil => rfl
  | cons a rest ih =>
      by_cases ha : a = "default" <;>
        simp [bulkLoop, ha, List.filter_cons, ih]

/-- When at least one non-default alias is configured, the first of them
drains the whole iterator and every later call of the loop receives
nothing. -/
theorem bulkLoop_of_filter_cons {A : Type} (aliases : List String) (remaining : List A)
    (c : String) (cs : List String)
    (h : aliases.filter (fun a => a != "default") = c :: cs) :
    bulkLoop aliases remaining = ((c, remaining) :: cs.map (fun x => (x, [])), []) := by
  induction aliases generalizing remaining with
  | nil => simp at h
  | cons a rest ih =>
      rw [List.filter_cons] at h
      by_cases ha : a = "default"
      · simp only [ha] at h
        simp only [bne_self_eq_false, Bool.false_eq_true, if_false] at h
        simpa [bulkLoop, ha] using ih remaining h
      · have hb : (a != "default") = true := by simpa using ha
        rw [hb] at h
        simp only [if_true] at h
        obtain ⟨hc, hcs⟩ := List.cons.injEq .. ▸ h
        subst hc
        simp [bulkLoop, ha, bulkLoop_nil, hcs]

/-- The save loop visits exactly the non-default aliases in enumeration
order. -/
theorem saveLoop_eq_filter (aliases : List String) :
    saveLoop aliases = aliases.filter (fun a => a != "default") := by
  induction aliases with
  | nil => rfl
  | cons a rest ih =>
      by_cases ha : a = "default" <;> simp [saveLoop, ha, List.filter_cons, ih]

/-- Visiting the non-default aliases first and "default" last is a
permutation of a duplicate-free alias list containing "default". -/
theorem filter_default_append_perm (l : List String) (hmem : "default" ∈ l)
    (hnd : l.Nodup) :
    List.Perm (l.filter (fun a => a != "default") ++ ["default"]) l := by
  have h1 : l.filter (fun a => a != "default") = l.erase "default" :=
    (hnd.erase_eq_filter "default").symm
  rw [h1]
  exact (List.perm_append_singleton _ _).trans (List.perm_cons_erase hmem).symm

/-- Claim C1, counterexample: for the cluster map with keys
["default", "replica"], DocType.delete does not invoke the "default"
cluster last — the loop visits the aliases in map enumeration order, so
the last invocation targets "replica"; its return value is also None
rather than the default cluster's result. -/
theorem C1_counterexample :
    (DocType.delete Unit (sampleSettings ["default", "replica"])).1.getLast? ≠
      some "default" := by
  decide

/-- Claim C1 (amended): bulk and save invoke every configured cluster
exactly once with "default" last and return the default invocation's
result; delete invokes every configured cluster exactly once but in map
enumeration order (so "default" is not necessarily last) and returns
None. -/
theorem C1_cluster_dispatch {A R R2 : Type} (R3 : Type) (s : Settings)
    (actions : List A) (run : String → List A → R) (runSave : String → R2)
    (hmem : "default" ∈ s.clusterAliases) (hnd : s.clusterAliases.Nodup) :
    (List.Perm ((DocType.bulk s actions run).1.map Prod.fst) s.clusterAliases ∧
     (∀ c ∈ s.clusterAliases, ((DocType.bulk s actions run).1.map Prod.fst).count c = 1) ∧
     ((DocType.bulk s actions run).1.map Prod.fst).getLast? = some "default" ∧
     (DocType.bulk s actions run).1.getLast? =
       some ("default", (bulkLoop s.clusterAliases actions).2) ∧
     (DocType.bulk s actions run).2 = run "default" (bulkLoop s.clusterAliases actions).2) ∧
    (List.Perm (DocType.save s runSave).1 s.clusterAliases ∧
     (∀ c ∈ s.clusterAliases, (DocType.save s runSave).1.count c = 1) ∧
     (DocType.save s runSave).1.getLast? = some "default" ∧
     (DocType.save s runSave).2 = runSave "default") ∧
    ((DocType.delete R3 s).1 = s.clusterAliases ∧
     (DocType.delete R3 s).2 = none) := by
  have hb : (DocType.bulk s actions run).1.map Prod.fst =
      s.clusterAliases.filter (fun a => a != "default") ++ ["default"] := by
    simp [DocType.bulk, bulkLoop_map_fst]
  have hsv : (DocType.save s runSave).1 =
      s.clusterAliases.filter (fun a => a != "default") ++ ["default"] := by
    simp [DocType.save, saveLoop_eq_filter]
  have hperm := filter_default_append_perm s.clusterAliases hmem hnd
  refine ⟨⟨?_, ?_, ?_, ?_, rfl⟩, ⟨?_, ?_, ?_, rfl⟩, rfl, rfl⟩
  · rw [hb]; exact hperm
  · intro c hc
    rw [hb, hperm.count_eq]
    exact List.count_eq_one_of_mem hnd hc
  · rw [hb]; exact List.getLast?_concat _
  · show ((bulkLoop s.clusterAliases actions).1 ++
      [("default", (bulkLoop s.clusterAliases actions).2)]).getLast? = _
    exact List.getLast?_concat _
  · rw [hsv]; exact hperm
  · intro c hc
    rw [hsv, hperm.count_eq]
    exact List.count_eq_one_of_mem hnd hc
  · rw [hsv]; exact List.getLast?_concat _

/-- Claim C1, witness: concrete two-cluster map satisfying the hypotheses
of the amended theorem. -/
theorem C1_cluster_dispatch_witness :
    ("default" ∈ (sampleSettings ["replica", "default"]).clusterAliases ∧
      (sampleSettings ["replica", "default"]).clusterAliases.Nodup) ∧
    ((DocType.bulk (sampleSettings ["replica", "default"]) [1, 2]
        (fun _ l => l)).1.map Prod.fst).getLast? = some "default" ∧
    (DocType.save (sampleSettings ["replica", "default"])
        (fun a => a)).2 = "default" :=
  ⟨⟨by decide, by decide⟩,
    (C1_cluster_dispatch Unit (sampleSettings ["replica", "default"]) [1, 2]
      (fun _ l => l) (fun a => a) (by decide) (by decide)).1.2.2.1,
    (C1_cluster_dispatch Unit (sampleSettings ["replica", "default"]) [1, 2]
      (fun _ l => l) (fun a => a) (by decide) (by decide)).2.1.2.2.2⟩

/-- Claim C10: DocType.bulk hands the same single-pass actions iterator to
every cluster, so with at least one non-default cluster configured the
first non-default call drains all actions and every subsequent call —
the final "default" call included, whose result is what bulk returns —
receives none. -/
theorem C10_iterator_exhaustion {A R : Type} (s : Settings) (actions : List A)
    (run : String → List A → R) (c : String) (cs : List String)
    (hf : s.clusterAliases.filter (fun a => a != "default") = c :: cs) :
    (DocType.bulk s actions run).1 =
      ((c, actions) :: cs.map (fun x => (x, []))) ++ [("default", [])] ∧
    (DocType.bulk s actions run).2 = run "default" [] := by
  unfold DocType.bulk
  rw [bulkLoop_of_filter_cons s.clusterAliases actions c cs hf]
  exact ⟨rfl, rfl⟩

/-- Claim C10, witness: two clusters, three actions — "replica" receives
all three actions and the final "default" call receives none. -/
theorem C10_iterator_exhaustion_witness :
    ((sampleSettings ["replica", "default"]).clusterAliases.filter
        (fun a => a != "default") = ["replica"]) ∧
    (DocType.bulk (sampleSettings ["replica", "default"]) [1, 2, 3]
        (fun _ l => l)).1 = [("replica", [1, 2, 3]), ("default", [])] ∧
    (DocType.bulk (sampleSettings ["replica", "default"]) [1, 2, 3]
        (fun _ l => l)).2 = [] :=
  ⟨by decide,
    (C10_iterator_exhaustion (sampleSettings ["replica", "default"]) [1, 2, 3]
      (fun _ l => l) "replica" [] (by decide)).1,
    (C10_iterator_exhaustion (sampleSettings ["replica", "default"]) [1, 2, 3]
      (fun _ l => l) "replica" [] (by decide)).2⟩

/-- Claim C2, code evaluation at the failing inputs: iterating the
_get_actions generator raises UnboundLocalError on its very first action
instead of yielding len(objects) actions — _prepare_action passes the
single string self._index._name to get_custom_index_name, whose
non-sequence branch formats the unassigned local `i`.  This holds on the
translation-disabled path, on the translation-enabled path with a
non-empty analyser list, and on the paginated path with positive page
size. -/
theorem C2_get_actions_crash {α E S : Type} (s : Settings) (indexBase action : String)
    (pkOf : α → Nat) (prep : α → LangState → Except E S × LangState)
    (o : α) (objects : List α) (lang0 : String) (langs : List String)
    (p : Nat) (st : LangState) :
    DocType.getActionsE { s with translationEnabled := false } none indexBase action
        pkOf prep (o :: objects) st = .error .unboundLocal ∧
    DocType.getActionsE
        { s with translationEnabled := true, languageAnalysers := lang0 :: langs }
        none indexBase action
        pkOf prep (o :: objects) st = .error .unboundLocal ∧
    DocType.getActionsE { s with translationEnabled := false } (some (p + 1)) indexBase
        action pkOf prep (o :: objects) st = .error .unboundLocal := by
  refine ⟨rfl, rfl, ?_⟩
  show exceptSeq ((DocType.getActions _ _ _).map _) = _
  have hpg : DocType.getActions
      { s with translationEnabled := false } (some (p + 1)) (o :: objects) =
      (djangoPages (p + 1) (o :: objects)).flatMap (fun page =>
        page.map (fun x => ⟨x, none⟩)) := rfl
  have hchunk : djangoPages (p + 1) (o :: objects) =
      (o :: objects.take p) :: chunkAux (p + 1) objects.length ((o :: objects).drop (p + 1)) := by
    simp [djangoPages, chunkList, chunkAux]
  rw [hpg, hchunk]
  rfl

/-- Claim C3: on a sequence argument get_custom_index_name computes one
name per element in input order (the result is the elementwise map of the
formatting function), so length and order are preserved; on a non-sequence
argument the code raises UnboundLocalError instead of returning a single
computed name. -/
theorem C3_index_name_sequence (s : Settings) (names : List String)
    (language : Option String) (base : String) :
    computedNames (get_custom_index_name s (.seq names) language) =
      some (names.map (formatName s.translationEnabled s.idxPre s.idxSuf
        (resolvedLanguage s language))) ∧
    (names.map (formatName s.translationEnabled s.idxPre s.idxSuf
        (resolvedLanguage s language))).length = names.length ∧
    get_custom_index_name s (.single base) language = .unboundLocalError := by
  refine ⟨?_, by simp, rfl⟩
  by_cases h : s.translationEnabled = true ∧ s.idxPre ≠ "" ∧ s.idxSuf ≠ "" <;>
    simp [get_custom_index_name, computedNames, h]

/-- Claim C5: each computed name is prefix, base, language (only with
translation enabled) and suffix in that order, separated by single hyphens
with absent segments omitted, and the raw value is returned exactly when
translation is enabled and both prefix and suffix are non-empty, the
default-index wrapper being applied otherwise — but the single-name path,
which the claim also covers, raises UnboundLocalError instead of applying
this formatting to its argument. -/
theorem C5_index_name_format (s : Settings) (names : List String)
    (language : Option String) (base : String) :
    get_custom_index_name s (.seq names) language =
      (if s.translationEnabled = true ∧ s.idxPre ≠ "" ∧ s.idxSuf ≠ "" then
        IndexResult.raw (.seq (names.map (formatName s.translationEnabled
          s.idxPre s.idxSuf (resolvedLanguage s language))))
      else
        IndexResult.defaultIndex (.seq (names.map (formatName s.translationEnabled
          s.idxPre s.idxSuf (resolvedLanguage s language))))) ∧
    formatName true "pre1" "suf1" "fr" "books" = "pre1-books-fr-suf1" ∧
    formatName true "" "" "fr" "books" = "books-fr" ∧
    formatName false "pre1" "suf1" "fr" "books" = "pre1-books-suf1" ∧
    formatName false "" "" "fr" "books" = "books" ∧
    get_custom_index_name s (.single base) language = .unboundLocalError := by
  refine ⟨?_, by decide, by decide, by decide, by decide, rfl⟩
  by_cases h : s.translationEnabled = true ∧ s.idxPre ≠ "" ∧ s.idxSuf ≠ "" <;>
    simp [get_custom_index_name, h]

/-- Claim C6: DocType.prepare resolves every declared mapped field in
declaration order by the priority prepare-with-related hook (receiving the
instance and the related-instances-to-ignore value), then prepare hook
(receiving the instance), then the generic extractor over the declared
attribute path, applying the translation hook keyed by field name with the
fail_silently flag when translation is enabled; and the default
translate_field hook is the identity. -/
theorem C6_prepare_resolution {I V G : Type} (env : DocEnv I V G) (inst : I)
    (ri : Option G) (fs : Bool) :
    DocType.prepare env inst ri fs =
      env.fields.filterMap (fun nf =>
        if nf.2.isDED then some (nf.1, resolveFieldSpec env inst ri fs nf.1 nf.2)
        else none) ∧
    (∀ (n : String) (v : V) (b : Bool), DocType.translate_field n v b = v) := by
  refine ⟨?_, fun n v b => rfl⟩
  unfold DocType.prepare resolveFieldSpec
  congr 1
  funext nf
  cases h : nf.2.isDED <;> simp [h]

/-- Claim C8: DocType.to_field raises ModelFieldNotMappedError carrying the
offending field name exactly when the model field class has no entry in
model_field_class_to_field_class, and otherwise returns the mapped search
field class instantiated with the field name as its attr. -/
theorem C8_to_field_mapping (n : String) (mf : ModelFieldClass) :
    ((DocType.to_field n mf).isOk = false ↔
      model_field_class_to_field_class.find? (fun e => e.1 = mf) = none) ∧
    (DocType.to_field n mf =
        .error ("Cannot convert model field " ++ n ++ " to an Elasticsearch field!") ↔
      model_field_class_to_field_class.find? (fun e => e.1 = mf) = none) ∧
    (∀ e, model_field_class_to_field_class.find? (fun e2 => e2.1 = mf) = some e →
      DocType.to_field n mf = .ok ⟨e.2, n⟩) := by
  unfold DocType.to_field
  cases h : model_field_class_to_field_class.find? (fun e => e.1 = mf) <;>
    simp [h, Except.isOk, Except.toBool]

/-- Claim C8, witness: AutoField is mapped, so to_field returns an
IntegerField instance whose attr is the model field name. -/
theorem C8_to_field_mapping_witness :
    model_field_class_to_field_class.find?
        (fun e2 => e2.1 = ModelFieldClass.AutoField) =
      some (.AutoField, .IntegerField) ∧
    DocType.to_field "age" ModelFieldClass.AutoField =
      .ok ⟨ESFieldClass.IntegerField, "age"⟩ :=
  ⟨by decide, (C8_to_field_mapping "age" ModelFieldClass.AutoField).2.2
    (.AutoField, .IntegerField) (by decide)⟩

/-- Claim C9: the with-block of _prepare_action runs its whole body in the
translation state whose active language is the requested one, and the
prior active language is restored when _prepare_action returns, for every
body outcome — raising bodies included. -/
theorem C9_language_scoping {E S : Type} (s : Settings) (indexBase action : String)
    (pk : Nat) (prep : LangState → Except E S × LangState)
    (language : Option String) (st : LangState) :
    (DocType.prepare_action s indexBase action pk prep language st).2.active =
      st.active ∧
    (DocType.prepare_action s indexBase action pk prep language st).1 =
      (prepActionBody s indexBase action pk prep language ⟨language⟩).1 ∧
    (∀ (body : LangState → Except E S × LangState),
      (translationOverride language body st).1 = (body ⟨language⟩).1 ∧
      (translationOverride language body st).2.active = st.active) :=
  ⟨rfl, rfl, fun _ => ⟨rfl, rfl⟩⟩

/-- A duplicate-free keyed row list has exactly one row with a given
present key, and filtering on that key isolates it. -/
theorem filter_eq_singleton_of_nodup {ρ : Type} (qs : List (Nat × ρ)) (p : Nat)
    (hnd : (qs.map Prod.fst).Nodup) (hmem : p ∈ qs.map Prod.fst) :
    ∃ v, qs.filter (fun r => r.1 == p) = [(p, v)] := by
  induction qs with
  | nil => simp at hmem
  | cons r t ih =>
      rw [List.map_cons, List.nodup_cons] at hnd
      rw [List.map_cons] at hmem
      rcases List.mem_cons.mp hmem with h | h
      · refine ⟨r.2, ?_⟩
        have ht : t.filter (fun x => x.1 == p) = [] := by
          rw [List.filter_eq_nil_iff]
          intro a ha hc
          rw [beq_iff_eq] at hc
          exact hnd.1 (h ▸ hc ▸ List.mem_map_of_mem Prod.fst ha)
        rw [List.filter_cons, ht]
        have hbeq : (r.1 == p) = true := by simp [h]
        simp only [hbeq, if_true, List.cons.injEq, and_true]
        exact Prod.ext h.symm rfl
      · have hne : (r.1 == p) = false := by
          rw [beq_eq_false_iff_ne]
          intro he
          exact hnd.1 (he ▸ h)
        obtain ⟨v, hv⟩ := ih hnd.2 h
        exact ⟨v, by rw [List.filter_cons, hne]; simpa using hv⟩

/-- Unfolding of the CASE-ordering on a leading hit id: rows matching the
first When clause come first, and the remaining rows are ordered by the
CASE built from the remaining ids. -/
theorem djangoCaseOrder_cons {ρ : Type} (p : Nat) (ps : List Nat)
    (qs : List (Nat × ρ)) :
    djangoCaseOrder (p :: ps) qs =
      qs.filter (fun r => r.1 == p) ++
        djangoCaseOrder ps (qs.filter (fun r => r.1 != p)) := by
  unfold djangoCaseOrder
  have hlen : (p :: ps).length + 1 = (ps.length + 1) + 1 := rfl
  rw [hlen, List.range_succ_eq_map, List.flatMap_cons, List.flatMap_map]
  congr 1
  · apply List.filter_congr
    intro r _
    by_cases hr : r.1 = p
    · simp [List.indexOf_cons, hr]
    · simp [List.indexOf_cons, hr, Ne.symm hr]
  · congr 1
    funext k
    rw [List.filter_filter]
    apply List.filter_congr
    intro r _
    by_cases hr : r.1 = p
    · simp [List.indexOf_cons, hr]
    · simp [List.indexOf_cons, hr, Ne.symm hr]

/-- Ordering rows by the CASE expression built from a duplicate-free hit
id list reproduces exactly that id order, whenever the rows are keyed
without duplicates, carry only keys from the id list, and cover every
id. -/
theorem djangoCaseOrder_map_fst {ρ : Type} (pks : List Nat) (qs : List (Nat × ρ))
    (hnd : pks.Nodup) (hsub : ∀ r ∈ qs, r.1 ∈ pks)
    (hqnd : (qs.map Prod.fst).Nodup) (hall : ∀ a ∈ pks, a ∈ qs.map Prod.fst) :
    (djangoCaseOrder pks qs).map Prod.fst = pks := by
  induction pks generalizing qs with
  | nil =>
      have hq : qs = [] := by
        cases qs with
        | nil => rfl
        | cons r t => exact absurd (hsub r (List.mem_cons_self r t)) (List.not_mem_nil _)
      subst hq
      rfl
  | cons p ps ih =>
      rw [djangoCaseOrder_cons, List.map_append]
      obtain ⟨v, hv⟩ := filter_eq_singleton_of_nodup qs p hqnd
        (hall p (List.mem_cons_self p ps))
      have hps := List.nodup_cons.mp hnd
      have h1 : ∀ r ∈ qs.filter (fun r => r.1 != p), r.1 ∈ ps := by
        intro r hr
        obtain ⟨hrq, hrne⟩ := List.mem_filter.mp hr
        rcases List.mem_cons.mp (hsub r hrq) with he | he
        · exact absurd he (by simpa using hrne)
        · exact he
      have h2 : ((qs.filter (fun r => r.1 != p)).map Prod.fst).Nodup :=
        List.Nodup.sublist (List.Sublist.map Prod.fst (List.filter_sublist qs)) hqnd
      have h3 : ∀ a ∈ ps, a ∈ (qs.filter (fun r => r.1 != p)).map Prod.fst := by
        intro a ha
        obtain ⟨r, hr, hre⟩ := List.mem_map.mp (hall a (List.mem_cons_of_mem p ha))
        refine List.mem_map.mpr ⟨r, List.mem_filter.mpr ⟨hr, ?_⟩, hre⟩
        have hap : a ≠ p := fun he => hps.1 (he ▸ ha)
        simpa [hre] using hap
      rw [hv, ih _ hps.2 h1 h2 h3]
      simp

/-- Rows in the hit id set of the queryset filter are present among the
filtered rows exactly when they are present in the database. -/
theorem mem_filter_map_fst {ρ : Type} (db : List (Nat × ρ)) (ids : List Nat)
    (a : Nat) (hmem : a ∈ db.map Prod.fst) (hid : a ∈ ids) :
    a ∈ (db.filter (fun r => ids.contains r.1)).map Prod.fst := by
  obtain ⟨r, hr, hre⟩ := List.mem_map.mp hmem
  refine List.mem_map.mpr ⟨r, List.mem_filter.mpr ⟨hr, ?_⟩, hre⟩
  rw [List.elem_iff, hre]
  exact hid

/-- Claim C4: when the response is not yet cached, to_queryset re-issues
the query with every source field excluded before executing it; and with
keep_order the returned rows are filtered to the hit ids and ordered by
the single CASE expression so that their primary-key order is exactly the
hit id order. -/
theorem C4_to_queryset_order {ρ : Type} (backend : List String → List Nat)
    (db : List (Nat × ρ)) (s : SearchS)
    (hdb : (db.map Prod.fst).Nodup) (hnd : (hitIds backend s).Nodup)
    (hall : ∀ a ∈ hitIds backend s, a ∈ db.map Prod.fst) :
    (s.cachedIds = none →
      ∀ ko, (Search.to_queryset backend db s ko).executedExcludes = some ["*"]) ∧
    (∀ ids, s.cachedIds = some ids →
      ∀ ko, (Search.to_queryset backend db s ko).executedExcludes = none) ∧
    (Search.to_queryset backend db s true).rows.map Prod.fst = hitIds backend s ∧
    (∀ r ∈ (Search.to_queryset backend db s true).rows,
      r ∈ db ∧ r.1 ∈ hitIds backend s) := by
  have hq : Search.to_queryset backend db s true =
      ⟨match s.cachedIds with | some _ => none | none => some ["*"],
        djangoCaseOrder (hitIds backend s)
          (db.filter (fun r => (hitIds backend s).contains r.1))⟩ := by
    cases hc : s.cachedIds <;>
      simp [Search.to_queryset, Search.execute, Search.source, hitIds, hc]
  refine ⟨?_, ?_, ?_, ?_⟩
  · intro hc ko
    cases ko <;> simp [Search.to_queryset, Search.execute, Search.source, hc]
  · intro ids hc ko
    cases ko <;> simp [Search.to_queryset, Search.execute, Search.source, hc]
  · rw [hq]
    refine djangoCaseOrder_map_fst _ _ hnd ?_ ?_ ?_
    · intro r hr
      obtain ⟨_, hrc⟩ := List.mem_filter.mp hr
      exact List.elem_iff.mp hrc
    · exact List.Nodup.sublist (List.Sublist.map Prod.fst (List.filter_sublist db)) hdb
    · intro a ha
      exact mem_filter_map_fst db _ a (hall a ha) ha
  · intro r hr
    rw [hq] at hr
    simp only [djangoCaseOrder] at hr
    obtain ⟨k, _, hrk⟩ := List.mem_flatMap.mp hr
    obtain ⟨hrf, _⟩ := List.mem_filter.mp hrk
    obtain ⟨hrdb, hrc⟩ := List.mem_filter.mp hrf
    exact ⟨hrdb, List.elem_iff.mp hrc⟩

/-- Claim C4, witness: hits [3, 1] over a three-row database produce rows
in primary-key order [3, 1], and the identifier-only re-issue is recorded. -/
theorem C4_to_queryset_order_witness :
    ((([(1, "x"), (2, "y"), (3, "z")] : List (Nat × String)).map Prod.fst).Nodup ∧
      (hitIds (fun _ => [3, 1]) ⟨[], none⟩).Nodup ∧
      (∀ a ∈ hitIds (fun _ => [3, 1]) ⟨[], none⟩,
        a ∈ ([(1, "x"), (2, "y"), (3, "z")] : List (Nat × String)).map Prod.fst)) ∧
    (Search.to_queryset (fun _ => [3, 1]) [(1, "x"), (2, "y"), (3, "z")]
        ⟨[], none⟩ true).executedExcludes = some ["*"] ∧
    (Search.to_queryset (fun _ => [3, 1]) [(1, "x"), (2, "y"), (3, "z")]
        ⟨[], none⟩ true).rows.map Prod.fst = [3, 1] :=
  ⟨⟨by decide, by decide, by decide⟩,
    (C4_to_queryset_order (fun _ => [3, 1]) [(1, "x"), (2, "y"), (3, "z")]
      ⟨[], none⟩ (by decide) (by decide) (by decide)).1 rfl true,
    (C4_to_queryset_order (fun _ => [3, 1]) [(1, "x"), (2, "y"), (3, "z")]
      ⟨[], none⟩ (by decide) (by decide) (by decide)).2.2.1⟩

/-- Key lookup distributes over appending query-body fragments, preferring
the earlier fragment. -/
theorem lookupKey_append (k : String) (a b : List (String × Nat)) :
    lookupKey k (a ++ b) = (lookupKey k a).or (lookupKey k b) := by
  unfold lookupKey
  rw [List.find?_append]
  cases a.find? (fun e => e.1 = k) <;> simp

/-- Key lookup in a single-entry body. -/
theorem lookupKey_singleton (k k2 : String) (v : Nat) :
    lookupKey k [(k2, v)] = if k2 = k then some v else none := by
  by_cases h : k2 = k <;> simp [lookupKey, List.find?, h]

/-- Key lookup in an empty body. -/
theorem lookupKey_nil (k : String) : lookupKey k [] = none := rfl

/-- Key lookup steps over a leading entry. -/
theorem lookupKey_cons (k k2 : String) (v : Nat) (t : List (String × Nat)) :
    lookupKey k ((k2, v) :: t) = if k2 = k then some v else lookupKey k t := by
  by_cases h : k2 = k <;> simp [lookupKey, List.find?, h]

/-- Claim C7: to_dict with count=True carries neither "from" nor "size"
(the superclass emits the extra parameters only for non-count bodies),
while to_dict with count=False always carries both, with the caller-set
values kept and with defaults 0 and the configured page size appended when
the caller set neither. -/
theorem C7_to_dict_pagination (lpq : Nat) (base extra : List (String × Nat))
    (hf : lookupKey "from" base = none) (hs : lookupKey "size" base = none) :
    (lookupKey "from" (Search.to_dict lpq true base extra) = none ∧
     lookupKey "size" (Search.to_dict lpq true base extra) = none) ∧
    (lookupKey "from" (Search.to_dict lpq false base extra) =
       some ((lookupKey "from" extra).getD 0) ∧
     lookupKey "size" (Search.to_dict lpq false base extra) =
       some ((lookupKey "size" extra).getD lpq)) := by
  refine ⟨⟨?_, ?_⟩, ?_, ?_⟩
  · simpa [Search.to_dict, DSLSearch.to_dict] using hf
  · simpa [Search.to_dict, DSLSearch.to_dict] using hs
  · cases cf : lookupKey "from" extra <;>
      cases cs : lookupKey "size" extra <;>
        simp [Search.to_dict, DSLSearch.to_dict, lookupKey_append,
          lookupKey_singleton, lookupKey_cons, lookupKey_nil, hf, hs, cf, cs]
  · cases cf : lookupKey "from" extra <;>
      cases cs : lookupKey "size" extra <;>
        simp [Search.to_dict, DSLSearch.to_dict, lookupKey_append,
          lookupKey_singleton, lookupKey_cons, lookupKey_nil, hf, hs, cf, cs]

/-- Claim C7, witness: a body holding only a query key, with no caller-set
pagination, gains from=0 and size=10 on the non-count path and stays free
of both keys on the count path. -/
theorem C7_to_dict_pagination_witness :
    (lookupKey "from" [("query", 7)] = none ∧
      lookupKey "size" [("query", 7)] = none) ∧
    (lookupKey "from" (Search.to_dict 10 true [("query", 7)] []) = none ∧
      lookupKey "size" (Search.to_dict 10 true [("query", 7)] []) = none) ∧
    (lookupKey "from" (Search.to_dict 10 false [("query", 7)] []) = some 0 ∧
      lookupKey "size" (Search.to_dict 10 false [("query", 7)] []) = some 10) :=
  ⟨⟨by decide, by decide⟩,
    (C7_to_dict_pagination 10 [("query", 7)] [] (by decide) (by decide)).1,
    (C7_to_dict_pagination 10 [("query", 7)] [] (by decide) (by decide)).2⟩

end DED
